import Mathlib

/-!
Shallow embedding of KeLinkBot (`bot.py`): a reciprocity policy engine for
link sharing over a Redis-backed interaction ledger.

The Redis store is modelled as an explicit `Store` record; every Redis call
the Python code makes is a small function that may fail (Redis being an
external service), returning `Except Unit`.  A failure configuration
`FailCfg` says which keys' operations fail; `noFail` is the failure-free
run, which models normal sequential execution.  Timestamps and sorted-set
scores are `Int` seconds since the epoch; user ids and message ids are `Nat`.
-/

/-- `TTL_12H = 43_200` seconds, the trailing-window length in `bot.py`. -/
def TTL12H : Int := 43200

/-- UTC calendar day of an epoch timestamp (models `date.today()` on a UTC
host, used to build the `cnt:{date}:{user_id}` key). -/
def dayOf (now : Int) : Int := now / 86400

/-- Models `seconds_to_midnight()`: seconds from `now` to the next UTC
midnight. -/
def secondsToMidnight (now : Int) : Int := 86400 - now % 86400

/-- The persisted state living in Redis.  `cnt` is the family of
`cnt:{date}:{user_id}` counters (absent ≡ 0, as the code reads them with
`or 0`); `cntExpiry` records the absolute expiry timestamp the code attaches
to a counter key; `poster` is `post:{pid}:poster`; `interacted` is the
acknowledgment set `post:{pid}:interacted`; `window` is the sorted set
`posts_last12h` as a `(member, score)` list kept in score order; `grace` is
the `enforce_after` key. -/
structure Store where
  cnt : Int × Nat → Nat
  cntExpiry : Int × Nat → Option Int
  poster : Nat → Option Nat
  interacted : Nat → Finset Nat
  window : List (Nat × Int)
  grace : Option Int

/-- The Redis keys the bot touches, used to describe which store calls fail. -/
inductive RKey
  | cntK (day : Int) (uid : Nat)
  | graceK
  | windowK
  | posterK (pid : Nat)
  | interK (pid : Nat)
deriving DecidableEq

/-- A failure configuration: which keys' store operations raise. -/
def FailCfg := RKey → Bool

/-- The failure-free configuration (every store call succeeds). -/
def noFail : FailCfg := fun _ => false

/-- Decision rendered by the admission pipeline `on_link`. -/
inductive Decision
  | ignored
  | rejectedQuota
  | rejectedReciprocity
  | admitted (postId : Nat) (count : Nat)
deriving DecidableEq

/-- Lower-case a character list (models `re.I` case-insensitive matching). -/
def lowerAll (l : List Char) : List Char := l.map Char.toLower

/-- Boolean list-prefix test used by the regex model. -/
def isPref : List Char → List Char → Bool
  | [], _ => true
  | _ :: _, [] => false
  | a :: as, b :: bs => a = b && isPref as bs

/-- The pattern `https?://` matches at the head of a (lower-cased) list. -/
def linkAt (l : List Char) : Bool :=
  isPref ['h','t','t','p',':','/','/'] l ||
    isPref ['h','t','t','p','s',':','/','/'] l

/-- The pattern `https?://` matches at some position of the list. -/
def containsLinkL : List Char → Bool
  | [] => false
  | c :: cs => linkAt (lowerAll (c :: cs)) || containsLinkL cs

/-- Models `LINK_RE = re.compile(r"https?://", re.I)` applied with
`.search`: the text contains `http://` or `https://`, case-insensitively. -/
def containsLink (s : String) : Bool := containsLinkL s.data

/-- Models `redis_db.get(f"cnt:{date}:{uid}")` followed by `int(... or 0)`. -/
def getCnt (f : FailCfg) (st : Store) (day : Int) (uid : Nat) : Except Unit Nat :=
  if f (.cntK day uid) then .error () else .ok (st.cnt (day, uid))

/-- Models `redis_db.set(key, cnt, ex=seconds_to_midnight())` on a counter
key: stores the value and an absolute expiry timestamp. -/
def setCnt (f : FailCfg) (st : Store) (day : Int) (uid : Nat) (v : Nat)
    (expiry : Int) : Except Unit Store :=
  if f (.cntK day uid) then .error ()
  else .ok { st with
    cnt := Function.update st.cnt (day, uid) v
    cntExpiry := Function.update st.cntExpiry (day, uid) (some expiry) }

/-- Models `redis_db.get(GRACE_KEY)`. -/
def getGrace (f : FailCfg) (st : Store) : Except Unit (Option Int) :=
  if f .graceK then .error () else .ok st.grace

/-- Models `redis_db.get(f"post:{pid}:poster")` (absent ⇒ `None`). -/
def getPoster (f : FailCfg) (st : Store) (pid : Nat) : Except Unit (Option Nat) :=
  if f (.posterK pid) then .error () else .ok (st.poster pid)

/-- Models `redis_db.setex(f"post:{pid}:poster", TTL_12H, uid)`. -/
def setPoster (f : FailCfg) (st : Store) (pid : Nat) (uid : Nat) :
    Except Unit Store :=
  if f (.posterK pid) then .error ()
  else .ok { st with poster := Function.update st.poster pid (some uid) }

/-- Models `redis_db.sismember(f"post:{pid}:interacted", uid)`. -/
def sisMember (f : FailCfg) (st : Store) (pid : Nat) (uid : Nat) :
    Except Unit Bool :=
  if f (.interK pid) then .error () else .ok (decide (uid ∈ st.interacted pid))

/-- Models `redis_db.sadd(f"post:{pid}:interacted", uid)`. -/
def sAddInter (f : FailCfg) (st : Store) (pid : Nat) (uid : Nat) :
    Except Unit Store :=
  if f (.interK pid) then .error ()
  else .ok { st with
    interacted := Function.update st.interacted pid (insert uid (st.interacted pid)) }

/-- Models `redis_db.expire(f"post:{pid}:interacted", TTL_12H)`: a store
round-trip that can fail; TTL bookkeeping of acknowledgment sets is not
tracked beyond membership. -/
def expireInter (f : FailCfg) (st : Store) (pid : Nat) : Except Unit Store :=
  if f (.interK pid) then .error () else .ok st

/-- Pure range query on the window index: members of `posts_last12h` whose
score lies in the inclusive interval `[lo, hi]`, in list (score) order. -/
def zrangePure (st : Store) (lo hi : Int) : List Nat :=
  (st.window.filter (fun e => lo ≤ e.2 && e.2 ≤ hi)).map (fun e => e.1)

/-- The ledger query `posts_in_window(now, W)`: the range query the engine
issues over the window index, `zrangebyscore("posts_last12h", now - W, now)`. -/
def postsInWindow (st : Store) (now W : Int) : List Nat :=
  zrangePure st (now - W) now

/-- Models `redis_db.zrangebyscore("posts_last12h", lo, hi)`. -/
def zrangeWindow (f : FailCfg) (st : Store) (lo hi : Int) :
    Except Unit (List Nat) :=
  if f .windowK then .error () else .ok (zrangePure st lo hi)

/-- Score-ordered insertion used to model `zadd` on a sorted set. -/
def zinsert (e : Nat × Int) : List (Nat × Int) → List (Nat × Int)
  | [] => [e]
  | x :: xs => if e.2 < x.2 then e :: x :: xs else x :: zinsert e xs

/-- Models `redis_db.zadd("posts_last12h", {pid: score})`: replaces any
existing entry for `pid` and inserts `(pid, score)` in score order. -/
def zAddWindow (f : FailCfg) (st : Store) (pid : Nat) (score : Int) :
    Except Unit Store :=
  if f .windowK then .error ()
  else .ok { st with
    window := zinsert (pid, score) (st.window.filter (fun e => e.1 ≠ pid)) }

/-- Models `redis_db.expire("posts_last12h", TTL_12H)`: a store round-trip
that can fail; the whole-key TTL itself is not tracked. -/
def expireWindow (f : FailCfg) (st : Store) : Except Unit Store :=
  if f .windowK then .error () else .ok st

/-- Models `daily_count(uid)`. -/
def dailyCount (f : FailCfg) (st : Store) (now : Int) (uid : Nat) :
    Except Unit Nat :=
  getCnt f st (dayOf now) uid

/-- Models `bump_daily_count(uid)`: re-reads the counter, writes back the
incremented value with a TTL reaching the next UTC midnight, and returns the
new count. -/
def bumpDailyCount (f : FailCfg) (st : Store) (now : Int) (uid : Nat) :
    Except Unit (Nat × Store) :=
  match getCnt f st (dayOf now) uid with
  | .error e => .error e
  | .ok c =>
    match setCnt f st (dayOf now) uid (c + 1) (now + secondsToMidnight now) with
    | .error e => .error e
    | .ok st1 => .ok (c + 1, st1)

/-- Models `mark_interaction(msg_id, uid)`: `sadd` then `expire`. -/
def markInteraction (f : FailCfg) (st : Store) (pid : Nat) (uid : Nat) :
    Except Unit Store :=
  match sAddInter f st pid uid with
  | .error e => .error e
  | .ok st1 => expireInter f st1 pid

/-- The loop body of `has_fulfilled_rule`: walk the window's post ids; skip
posts whose stored poster equals the user; fail on the first post whose
acknowledgment set misses the user. -/
def checkPosts (f : FailCfg) (st : Store) (uid : Nat) :
    List Nat → Except Unit Bool
  | [] => .ok true
  | pid :: rest =>
    match getPoster f st pid with
    | .error e => .error e
    | .ok p =>
      if p = some uid then checkPosts f st uid rest
      else
        match sisMember f st pid uid with
        | .error e => .error e
        | .ok b => if b then checkPosts f st uid rest else .ok false

/-- Models `has_fulfilled_rule(uid)` evaluated at time `now`: read the grace
deadline (defaulting to `now + TTL_12H` when absent), pass unconditionally
while `now < enforce_after`, otherwise check every post of the trailing
12-hour window. -/
def hasFulfilledRule (f : FailCfg) (st : Store) (now : Int) (uid : Nat) :
    Except Unit Bool :=
  match getGrace f st with
  | .error e => .error e
  | .ok g =>
    let enforceAfter := match g with | some v => v | none => now + TTL12H
    if now < enforceAfter then .ok true
    else
      match zrangeWindow f st (now - TTL12H) now with
      | .error e => .error e
      | .ok pids => checkPosts f st uid pids

/-- Models the admission pipeline `on_link` for a message from `uid` with
body `text` handled at time `now`; `newPid` is the message id the transport
assigns to the reposted link.  Returns the decision together with the store
state after the call. -/
def onLink (f : FailCfg) (st : Store) (now : Int) (uid : Nat) (text : String)
    (newPid : Nat) : Except Unit (Decision × Store) :=
  if !containsLink text then .ok (.ignored, st)
  else
    match dailyCount f st now uid with
    | .error e => .error e
    | .ok c =>
      if 3 ≤ c then .ok (.rejectedQuota, st)
      else
        match hasFulfilledRule f st now uid with
        | .error e => .error e
        | .ok ok =>
          if !ok then .ok (.rejectedReciprocity, st)
          else
            match bumpDailyCount f st now uid with
            | .error e => .error e
            | .ok (count, st1) =>
              match setPoster f st1 newPid uid with
              | .error e => .error e
              | .ok st2 =>
                match markInteraction f st2 newPid uid with
                | .error e => .error e
                | .ok st3 =>
                  match zAddWindow f st3 newPid now with
                  | .error e => .error e
                  | .ok st4 =>
                    match expireWindow f st4 with
                    | .error e => .error e
                    | .ok st5 => .ok (.admitted newPid count, st5)

/-- Events dispatched to the bot: a text message (handled by `on_link`), a
reaction, or a reply (both recorded by `mark_interaction`). -/
inductive Event
  | link (uid : Nat) (text : String) (newPid : Nat)
  | reaction (pid : Nat) (uid : Nat)
  | reply (pid : Nat) (uid : Nat)

/-- Sequential execution of a list of timestamped events against the store,
in the failure-free run: the big-step relation tying the initial store to
the final store. -/
inductive Steps : Store → List (Int × Event) → Store → Prop
  | nil (st : Store) : Steps st [] st
  | link (st st1 st2 : Store) (now : Int) (uid : Nat) (text : String)
      (newPid : Nat) (d : Decision) (evs : List (Int × Event)) :
      onLink noFail st now uid text newPid = .ok (d, st1) →
      Steps st1 evs st2 →
      Steps st ((now, .link uid text newPid) :: evs) st2
  | reaction (st st1 st2 : Store) (now : Int) (pid uid : Nat)
      (evs : List (Int × Event)) :
      markInteraction noFail st pid uid = .ok st1 →
      Steps st1 evs st2 →
      Steps st ((now, .reaction pid uid) :: evs) st2
  | reply (st st1 st2 : Store) (now : Int) (pid uid : Nat)
      (evs : List (Int × Event)) :
      markInteraction noFail st pid uid = .ok st1 →
      Steps st1 evs st2 →
      Steps st ((now, .reply pid uid) :: evs) st2

/-- A post of the trailing window that blocks `uid`: posted by someone else
(or with an expired poster record) and not yet acknowledged by `uid`. -/
def existsUnacknowledged (st : Store) (now : Int) (uid : Nat) : Bool :=
  (zrangePure st (now - TTL12H) now).any
    (fun pid => !(st.poster pid = some uid) && !(uid ∈ st.interacted pid))

/-- The acknowledgment condition the loop of `has_fulfilled_rule` checks for
one post: it is the user's own, or the user is in its acknowledgment set. -/
def ackOk (st : Store) (uid pid : Nat) : Bool :=
  decide (st.poster pid = some uid) || decide (uid ∈ st.interacted pid)

/-- The pure value of `has_fulfilled_rule`: grace still active, or every
window post satisfies `ackOk`. -/
def ruleFulfilled (st : Store) (now : Int) (uid : Nat) : Bool :=
  let enforceAfter := match st.grace with | some v => v | none => now + TTL12H
  decide (now < enforceAfter) || !existsUnacknowledged st now uid

/-- The store state after a successful admission in `on_link`: counter
bumped, poster recorded, self-acknowledgment added, window index extended. -/
def admittedStore (st : Store) (now : Int) (uid newPid : Nat) : Store :=
  { cnt := Function.update st.cnt (dayOf now, uid) (st.cnt (dayOf now, uid) + 1)
    cntExpiry := Function.update st.cntExpiry (dayOf now, uid)
      (some (now + secondsToMidnight now))
    poster := Function.update st.poster newPid (some uid)
    interacted := Function.update st.interacted newPid
      (insert uid (st.interacted newPid))
    window := zinsert (newPid, now) (st.window.filter (fun e => e.1 ≠ newPid))
    grace := st.grace }

/-- The timestamp of the next UTC midnight strictly after the day of `now`. -/
def nextUtcMidnight (now : Int) : Int := 86400 * (dayOf now + 1)

/-- An empty concrete store used to instantiate theorems on concrete inputs. -/
def exEmpty : Store :=
  { cnt := fun _ => 0
    cntExpiry := fun _ => none
    poster := fun _ => none
    interacted := fun _ => ∅
    window := []
    grace := none }

/-- A concrete store whose user counters all read 3 (quota exhausted). -/
def exFull : Store :=
  { cnt := fun _ => 3
    cntExpiry := fun _ => none
    poster := fun _ => none
    interacted := fun _ => ∅
    window := []
    grace := none }

/-- A concrete store with one foreign, unacknowledged post at time 150 and a
grace deadline of 100. -/
def exGrace : Store :=
  { exEmpty with
    window := [(5, 150)]
    poster := fun _ => some 99
    grace := some 100 }

/-- A concrete store whose counters read 3 with an unacknowledged foreign
post (post 5 by user 99 at time 0) and an elapsed grace deadline. -/
def exQuotaAndDebt : Store :=
  { exEmpty with
    cnt := fun _ => 3
    poster := fun _ => some 99
    window := [(5, 0)]
    grace := some 0 }

/-- C4 counterexample store: a single post recorded at time 0. -/
def exOnePost : Store := { exEmpty with window := [(5, 0)] }

/-- The store after recording interaction (5, 1) on the empty store. -/
def exMarked : Store :=
  { exEmpty with
    interacted := Function.update exEmpty.interacted 5
      (insert 1 (exEmpty.interacted 5)) }

lemma getCnt_noFail (st : Store) (d : Int) (u : Nat) :
    getCnt noFail st d u = .ok (st.cnt (d, u)) := rfl

lemma getGrace_noFail (st : Store) : getGrace noFail st = .ok st.grace := rfl

lemma getPoster_noFail (st : Store) (pid : Nat) :
    getPoster noFail st pid = .ok (st.poster pid) := rfl

lemma sisMember_noFail (st : Store) (pid uid : Nat) :
    sisMember noFail st pid uid = .ok (decide (uid ∈ st.interacted pid)) := rfl

lemma zrangeWindow_noFail (st : Store) (lo hi : Int) :
    zrangeWindow noFail st lo hi = .ok (zrangePure st lo hi) := rfl

lemma markInteraction_noFail (st : Store) (pid uid : Nat) :
    markInteraction noFail st pid uid =
      .ok { st with
        interacted := Function.update st.interacted pid
          (insert uid (st.interacted pid)) } := rfl

lemma bumpDailyCount_noFail (st : Store) (now : Int) (uid : Nat) :
    bumpDailyCount noFail st now uid =
      .ok (st.cnt (dayOf now, uid) + 1,
        { st with
          cnt := Function.update st.cnt (dayOf now, uid)
            (st.cnt (dayOf now, uid) + 1)
          cntExpiry := Function.update st.cntExpiry (dayOf now, uid)
            (some (now + secondsToMidnight now)) }) := rfl

lemma checkPosts_noFail (st : Store) (uid : Nat) (l : List Nat) :
    checkPosts noFail st uid l = .ok (l.all (ackOk st uid)) := by
  induction l with
  | nil => rfl
  | cons pid rest ih =>
    simp only [checkPosts, getPoster_noFail, sisMember_noFail, List.all_cons, ackOk]
    by_cases hp : st.poster pid = some uid
    · simp [hp, ih]
    · by_cases hm : uid ∈ st.interacted pid
      · simp [hp, hm, ih]
      · simp [hp, hm]

lemma existsUnacknowledged_eq (st : Store) (now : Int) (uid : Nat) :
    existsUnacknowledged st now uid =
      !((postsInWindow st now TTL12H).all (ackOk st uid)) := by
  simp only [existsUnacknowledged, postsInWindow, ackOk, List.any_eq, List.all_eq,
    Bool.and_eq_true, Bool.not_eq_eq_eq_not, Bool.not_true, decide_eq_false_iff_not,
    decide_eq_true_eq]
  rw [← decide_not, decide_eq_decide]
  push_neg
  simp only [ne_eq, Bool.or_eq_true, decide_eq_true_eq, not_or]

lemma hasFulfilledRule_noFail (st : Store) (now : Int) (uid : Nat) :
    hasFulfilledRule noFail st now uid = .ok (ruleFulfilled st now uid) := by
  simp only [hasFulfilledRule, getGrace_noFail, ruleFulfilled]
  by_cases h : now < (match st.grace with | some v => v | none => now + TTL12H)
  · simp [h]
  · simp only [h, if_false, decide_eq_true_eq]
    simp only [zrangeWindow_noFail, checkPosts_noFail]
    simp [existsUnacknowledged_eq, postsInWindow, h]

lemma dailyCount_noFail (st : Store) (now : Int) (uid : Nat) :
    dailyCount noFail st now uid = .ok (st.cnt (dayOf now, uid)) := rfl

lemma onLink_noFail_ignored (st : Store) (now : Int) (uid newPid : Nat)
    (text : String) (hl : containsLink text = false) :
    onLink noFail st now uid text newPid = .ok (.ignored, st) := by
  simp [onLink, hl]

lemma onLink_noFail_quota (st : Store) (now : Int) (uid newPid : Nat)
    (text : String) (hl : containsLink text = true)
    (h3 : 3 ≤ st.cnt (dayOf now, uid)) :
    onLink noFail st now uid text newPid = .ok (.rejectedQuota, st) := by
  simp [onLink, hl, dailyCount_noFail, h3]

lemma onLink_noFail_reciprocity (st : Store) (now : Int) (uid newPid : Nat)
    (text : String) (hl : containsLink text = true)
    (h3 : st.cnt (dayOf now, uid) < 3)
    (hr : ruleFulfilled st now uid = false) :
    onLink noFail st now uid text newPid = .ok (.rejectedReciprocity, st) := by
  have h3n : ¬ 3 ≤ st.cnt (dayOf now, uid) := by omega
  simp [onLink, hl, dailyCount_noFail, h3n, hasFulfilledRule_noFail, hr]

lemma onLink_noFail_admission (st : Store) (now : Int) (uid newPid : Nat)
    (text : String) (hl : containsLink text = true)
    (h3 : st.cnt (dayOf now, uid) < 3)
    (hr : ruleFulfilled st now uid = true) :
    onLink noFail st now uid text newPid =
      .ok (.admitted newPid (st.cnt (dayOf now, uid) + 1),
        admittedStore st now uid newPid) := by
  have h3n : ¬ 3 ≤ st.cnt (dayOf now, uid) := by omega
  simp only [onLink, hl, Bool.not_true, Bool.false_eq_true, if_false,
    dailyCount_noFail, h3n, hasFulfilledRule_noFail, hr, if_true,
    bumpDailyCount_noFail, setPoster, markInteraction_noFail, zAddWindow,
    expireWindow, noFail, if_neg, admittedStore]

lemma onLink_noFail_cases (st st1 : Store) (now : Int) (uid newPid : Nat)
    (text : String) (d : Decision)
    (h : onLink noFail st now uid text newPid = .ok (d, st1)) :
    (containsLink text = false ∧ d = .ignored ∧ st1 = st)
    ∨ (containsLink text = true ∧ 3 ≤ st.cnt (dayOf now, uid)
        ∧ d = .rejectedQuota ∧ st1 = st)
    ∨ (containsLink text = true ∧ st.cnt (dayOf now, uid) < 3
        ∧ ruleFulfilled st now uid = false
        ∧ d = .rejectedReciprocity ∧ st1 = st)
    ∨ (containsLink text = true ∧ st.cnt (dayOf now, uid) < 3
        ∧ ruleFulfilled st now uid = true
        ∧ d = .admitted newPid (st.cnt (dayOf now, uid) + 1)
        ∧ st1 = admittedStore st now uid newPid) := by
  by_cases hl : containsLink text = true
  · by_cases h3 : 3 ≤ st.cnt (dayOf now, uid)
    · rw [onLink_noFail_quota st now uid newPid text hl h3] at h
      simp only [Except.ok.injEq, Prod.mk.injEq] at h
      exact Or.inr (Or.inl ⟨hl, h3, h.1.symm, h.2.symm⟩)
    · have h3l : st.cnt (dayOf now, uid) < 3 := by omega
      by_cases hr : ruleFulfilled st now uid = true
      · rw [onLink_noFail_admission st now uid newPid text hl h3l hr] at h
        simp only [Except.ok.injEq, Prod.mk.injEq] at h
        exact Or.inr (Or.inr (Or.inr ⟨hl, h3l, hr, h.1.symm, h.2.symm⟩))
      · have hrf : ruleFulfilled st now uid = false := by
          revert hr; cases ruleFulfilled st now uid <;> simp
        rw [onLink_noFail_reciprocity st now uid newPid text hl h3l hrf] at h
        simp only [Except.ok.injEq, Prod.mk.injEq] at h
        exact Or.inr (Or.inr (Or.inl ⟨hl, h3l, hrf, h.1.symm, h.2.symm⟩))
  · have hlf : containsLink text = false := by
      revert hl; cases containsLink text <;> simp
    rw [onLink_noFail_ignored st now uid newPid text hlf] at h
    simp only [Except.ok.injEq, Prod.mk.injEq] at h
    exact Or.inl ⟨hlf, h.1.symm, h.2.symm⟩

lemma markInteraction_cnt (st st1 : Store) (pid uid : Nat)
    (h : markInteraction noFail st pid uid = .ok st1) : st1.cnt = st.cnt := by
  rw [markInteraction_noFail] at h
  simp only [Except.ok.injEq] at h
  subst h
  rfl

lemma steps_cnt_le (st stFin : Store) (evs : List (Int × Event))
    (hs : Steps st evs stFin) :
    (∀ k, st.cnt k ≤ 3) → ∀ k, stFin.cnt k ≤ 3 := by
  induction hs with
  | nil st0 => exact fun h => h
  | link st0 st1 st2 now uid text newPid d evs0 hol hsteps ih =>
    intro h0
    apply ih
    intro k
    rcases onLink_noFail_cases st0 st1 now uid newPid text d hol with
      ⟨_, _, he⟩ | ⟨_, _, _, he⟩ | ⟨_, _, _, _, he⟩ | ⟨_, hlt, _, _, he⟩
    · rw [he]; exact h0 k
    · rw [he]; exact h0 k
    · rw [he]; exact h0 k
    · subst he
      show Function.update st0.cnt (dayOf now, uid) (st0.cnt (dayOf now, uid) + 1) k ≤ 3
      rcases eq_or_ne k (dayOf now, uid) with hk | hk
      · subst hk; rw [Function.update_same]; omega
      · rw [Function.update_noteq hk]; exact h0 k
  | reaction st0 st1 st2 now pid uid evs0 hm hsteps ih =>
    intro h0
    apply ih
    rw [markInteraction_cnt st0 st1 pid uid hm]
    exact h0
  | reply st0 st1 st2 now pid uid evs0 hm hsteps ih =>
    intro h0
    apply ih
    rw [markInteraction_cnt st0 st1 pid uid hm]
    exact h0

lemma mem_postsInWindow (st : Store) (now W : Int) (q : Nat) :
    q ∈ postsInWindow st now W ↔
      ∃ s, (q, s) ∈ st.window ∧ now - W ≤ s ∧ s ≤ now := by
  simp only [postsInWindow, zrangePure, List.mem_map, List.mem_filter]
  constructor
  · rintro ⟨⟨q1, s⟩, ⟨hw, hr⟩, rfl⟩
    simp only [Bool.and_eq_true, decide_eq_true_eq] at hr
    exact ⟨s, hw, hr.1, hr.2⟩
  · rintro ⟨s, hw, h1, h2⟩
    exact ⟨(q, s), ⟨hw, by simp [h1, h2]⟩, rfl⟩

lemma list_any_congr {α : Type} {p q : α → Bool} :
    ∀ l : List α, (∀ a ∈ l, p a = q a) → l.any p = l.any q := by
  intro l
  induction l with
  | nil => intro _; rfl
  | cons a as ih =>
    intro h
    simp only [List.any_cons]
    rw [h a (List.mem_cons_self a as),
      ih (fun b hb => h b (List.mem_cons_of_mem a hb))]

lemma existsUnacknowledged_update_out (st : Store) (pid : Nat)
    (s : Finset Nat) (now : Int) (uid : Nat)
    (hnot : pid ∉ postsInWindow st now TTL12H) :
    existsUnacknowledged
        { st with interacted := Function.update st.interacted pid s } now uid
      = existsUnacknowledged st now uid := by
  simp only [existsUnacknowledged]
  have hz : zrangePure { st with interacted := Function.update st.interacted pid s }
      (now - TTL12H) now = zrangePure st (now - TTL12H) now := rfl
  rw [hz]
  apply list_any_congr
  intro q hq
  have hqp : q ≠ pid := by
    intro he
    subst he
    exact hnot hq
  show (!decide (st.poster q = some uid) &&
      !decide (uid ∈ Function.update st.interacted pid s q))
    = (!decide (st.poster q = some uid) && !decide (uid ∈ st.interacted q))
  rw [Function.update_noteq hqp]

lemma ruleFulfilled_congr (stA stB : Store) (now : Int) (uid : Nat)
    (hg : stA.grace = stB.grace)
    (hex : existsUnacknowledged stA now uid = existsUnacknowledged stB now uid) :
    ruleFulfilled stA now uid = ruleFulfilled stB now uid := by
  simp [ruleFulfilled, hg, hex]

lemma onLink_decision_congr (stA stB : Store) (now : Int) (uid newPid : Nat)
    (text : String)
    (hc : stA.cnt = stB.cnt)
    (hr : ruleFulfilled stA now uid = ruleFulfilled stB now uid) :
    Except.map Prod.fst (onLink noFail stA now uid text newPid)
      = Except.map Prod.fst (onLink noFail stB now uid text newPid) := by
  by_cases hl : containsLink text = true
  · by_cases h3 : 3 ≤ stA.cnt (dayOf now, uid)
    · rw [onLink_noFail_quota stA now uid newPid text hl h3,
        onLink_noFail_quota stB now uid newPid text hl (by rw [← hc]; exact h3)]
      rfl
    · have h3A : stA.cnt (dayOf now, uid) < 3 := by omega
      have h3B : stB.cnt (dayOf now, uid) < 3 := by rw [← hc]; exact h3A
      cases hrB : ruleFulfilled stB now uid with
      | false =>
        rw [onLink_noFail_reciprocity stA now uid newPid text hl h3A (hr.trans hrB),
          onLink_noFail_reciprocity stB now uid newPid text hl h3B hrB]
        rfl
      | true =>
        rw [onLink_noFail_admission stA now uid newPid text hl h3A (hr.trans hrB),
          onLink_noFail_admission stB now uid newPid text hl h3B hrB]
        simp [Except.map, hc]
  · have hlf : containsLink text = false := by
      revert hl; cases containsLink text <;> simp
    rw [onLink_noFail_ignored stA now uid newPid text hlf,
      onLink_noFail_ignored stB now uid newPid text hlf]
    rfl

lemma getCnt_ok (f : FailCfg) (st : Store) (d : Int) (u : Nat) (v : Nat)
    (h : getCnt f st d u = .ok v) : v = st.cnt (d, u) := by
  unfold getCnt at h
  by_cases hf : f (RKey.cntK d u) = true
  · rw [if_pos hf] at h
    exact absurd h (by simp)
  · rw [if_neg hf] at h
    simp only [Except.ok.injEq] at h
    exact h.symm

lemma getGrace_ok (f : FailCfg) (st : Store) (g : Option Int)
    (h : getGrace f st = .ok g) : g = st.grace := by
  unfold getGrace at h
  by_cases hf : f RKey.graceK = true
  · rw [if_pos hf] at h
    exact absurd h (by simp)
  · rw [if_neg hf] at h
    simp only [Except.ok.injEq] at h
    exact h.symm

lemma getPoster_ok (f : FailCfg) (st : Store) (pid : Nat) (p : Option Nat)
    (h : getPoster f st pid = .ok p) : p = st.poster pid := by
  unfold getPoster at h
  by_cases hf : f (RKey.posterK pid) = true
  · rw [if_pos hf] at h
    exact absurd h (by simp)
  · rw [if_neg hf] at h
    simp only [Except.ok.injEq] at h
    exact h.symm

lemma sisMember_ok (f : FailCfg) (st : Store) (pid uid : Nat) (b : Bool)
    (h : sisMember f st pid uid = .ok b) :
    b = decide (uid ∈ st.interacted pid) := by
  unfold sisMember at h
  by_cases hf : f (RKey.interK pid) = true
  · rw [if_pos hf] at h
    exact absurd h (by simp)
  · rw [if_neg hf] at h
    simp only [Except.ok.injEq] at h
    exact h.symm

lemma zrangeWindow_ok (f : FailCfg) (st : Store) (lo hi : Int)
    (pids : List Nat) (h : zrangeWindow f st lo hi = .ok pids) :
    pids = zrangePure st lo hi := by
  unfold zrangeWindow at h
  by_cases hf : f RKey.windowK = true
  · rw [if_pos hf] at h
    exact absurd h (by simp)
  · rw [if_neg hf] at h
    simp only [Except.ok.injEq] at h
    exact h.symm

lemma setCnt_ok (f : FailCfg) (st st1 : Store) (d : Int) (u : Nat) (v : Nat)
    (e : Int) (h : setCnt f st d u v e = .ok st1) :
    st1 = { st with
      cnt := Function.update st.cnt (d, u) v
      cntExpiry := Function.update st.cntExpiry (d, u) (some e) } := by
  unfold setCnt at h
  by_cases hf : f (RKey.cntK d u) = true
  · rw [if_pos hf] at h
    exact absurd h (by simp)
  · rw [if_neg hf] at h
    simp only [Except.ok.injEq] at h
    exact h.symm

lemma setPoster_ok (f : FailCfg) (st st1 : Store) (pid uid : Nat)
    (h : setPoster f st pid uid = .ok st1) :
    st1 = { st with poster := Function.update st.poster pid (some uid) } := by
  unfold setPoster at h
  by_cases hf : f (RKey.posterK pid) = true
  · rw [if_pos hf] at h
    exact absurd h (by simp)
  · rw [if_neg hf] at h
    simp only [Except.ok.injEq] at h
    exact h.symm

lemma sAddInter_ok (f : FailCfg) (st st1 : Store) (pid uid : Nat)
    (h : sAddInter f st pid uid = .ok st1) :
    st1 = { st with
      interacted := Function.update st.interacted pid
        (insert uid (st.interacted pid)) } := by
  unfold sAddInter at h
  by_cases hf : f (RKey.interK pid) = true
  · rw [if_pos hf] at h
    exact absurd h (by simp)
  · rw [if_neg hf] at h
    simp only [Except.ok.injEq] at h
    exact h.symm

lemma expireInter_ok (f : FailCfg) (st st1 : Store) (pid : Nat)
    (h : expireInter f st pid = .ok st1) : st1 = st := by
  unfold expireInter at h
  by_cases hf : f (RKey.interK pid) = true
  · rw [if_pos hf] at h
    exact absurd h (by simp)
  · rw [if_neg hf] at h
    simp only [Except.ok.injEq] at h
    exact h.symm

lemma zAddWindow_ok (f : FailCfg) (st st1 : Store) (pid : Nat) (score : Int)
    (h : zAddWindow f st pid score = .ok st1) :
    st1 = { st with
      window := zinsert (pid, score) (st.window.filter (fun e => e.1 ≠ pid)) } := by
  unfold zAddWindow at h
  by_cases hf : f RKey.windowK = true
  · rw [if_pos hf] at h
    exact absurd h (by simp)
  · rw [if_neg hf] at h
    simp only [Except.ok.injEq] at h
    exact h.symm

lemma expireWindow_ok (f : FailCfg) (st st1 : Store)
    (h : expireWindow f st = .ok st1) : st1 = st := by
  unfold expireWindow at h
  by_cases hf : f RKey.windowK = true
  · rw [if_pos hf] at h
    exact absurd h (by simp)
  · rw [if_neg hf] at h
    simp only [Except.ok.injEq] at h
    exact h.symm

lemma checkPosts_ok_val (f : FailCfg) (st : Store) (uid : Nat) :
    ∀ (l : List Nat) (b : Bool), checkPosts f st uid l = .ok b →
      b = l.all (ackOk st uid) := by
  intro l
  induction l with
  | nil =>
    intro b h
    simp only [checkPosts, Except.ok.injEq] at h
    simp [← h]
  | cons pid rest ih =>
    intro b h
    cases hg : getPoster f st pid with
    | error e => simp [checkPosts, hg] at h
    | ok p =>
      have hp := getPoster_ok f st pid p hg
      subst hp
      simp only [checkPosts, hg] at h
      by_cases hpe : st.poster pid = some uid
      · rw [if_pos hpe] at h
        rw [List.all_cons]
        have hb := ih b h
        simp [ackOk, hpe, hb]
      · rw [if_neg hpe] at h
        cases hm : sisMember f st pid uid with
        | error e => simp [hm] at h
        | ok mb =>
          have hmv := sisMember_ok f st pid uid mb hm
          subst hmv
          simp only [hm] at h
          by_cases hmem : uid ∈ st.interacted pid
          · rw [if_pos (by simp [hmem])] at h
            rw [List.all_cons]
            have hb := ih b h
            simp [ackOk, hmem, hb]
          · rw [if_neg (by simp [hmem])] at h
            simp only [Except.ok.injEq] at h
            rw [List.all_cons]
            simp [ackOk, hpe, hmem, ← h]

lemma hasFulfilledRule_ok (f : FailCfg) (st : Store) (now : Int) (uid : Nat)
    (b : Bool) (h : hasFulfilledRule f st now uid = .ok b) :
    hasFulfilledRule noFail st now uid = .ok b := by
  cases hg : getGrace f st with
  | error e => simp [hasFulfilledRule, hg] at h
  | ok g =>
    have hgv := getGrace_ok f st g hg
    subst hgv
    simp only [hasFulfilledRule, hg] at h
    rw [hasFulfilledRule_noFail]
    by_cases hlt : now < (match st.grace with | some v => v | none => now + TTL12H)
    · rw [if_pos hlt] at h
      simp only [Except.ok.injEq] at h
      subst h
      simp [ruleFulfilled, hlt]
    · rw [if_neg hlt] at h
      cases hz : zrangeWindow f st (now - TTL12H) now with
      | error e => simp [hz] at h
      | ok pids =>
        have hzv := zrangeWindow_ok f st _ _ pids hz
        subst hzv
        simp only [hz] at h
        have hb := checkPosts_ok_val f st uid _ b h
        rw [hb]
        simp [ruleFulfilled, hlt, existsUnacknowledged_eq, postsInWindow]

lemma bumpDailyCount_ok (f : FailCfg) (st : Store) (now : Int) (uid : Nat)
    (r : Nat × Store) (h : bumpDailyCount f st now uid = .ok r) :
    bumpDailyCount noFail st now uid = .ok r := by
  cases hg : getCnt f st (dayOf now) uid with
  | error e => simp [bumpDailyCount, hg] at h
  | ok c =>
    have hc := getCnt_ok f st (dayOf now) uid c hg
    subst hc
    simp only [bumpDailyCount, hg] at h
    cases hs : setCnt f st (dayOf now) uid (st.cnt (dayOf now, uid) + 1)
        (now + secondsToMidnight now) with
    | error e => simp [hs] at h
    | ok st2 =>
      have h2 := setCnt_ok f st st2 (dayOf now) uid _ _ hs
      subst h2
      simp only [hs] at h
      rw [bumpDailyCount_noFail, h]

lemma markInteraction_ok (f : FailCfg) (st st1 : Store) (pid uid : Nat)
    (h : markInteraction f st pid uid = .ok st1) :
    markInteraction noFail st pid uid = .ok st1 := by
  cases ha : sAddInter f st pid uid with
  | error e => simp [markInteraction, ha] at h
  | ok st2 =>
    have h2 := sAddInter_ok f st st2 pid uid ha
    subst h2
    simp only [markInteraction, ha] at h
    have h3 := expireInter_ok f _ st1 pid h
    rw [markInteraction_noFail, h3]

lemma markInteraction_ok_val (f : FailCfg) (st st1 : Store) (pid uid : Nat)
    (h : markInteraction f st pid uid = .ok st1) :
    st1 = { st with
      interacted := Function.update st.interacted pid
        (insert uid (st.interacted pid)) } := by
  have h2 := markInteraction_ok f st st1 pid uid h
  rw [markInteraction_noFail] at h2
  simp only [Except.ok.injEq] at h2
  exact h2.symm

lemma onLink_ok (f : FailCfg) (st : Store) (now : Int) (uid newPid : Nat)
    (text : String) (r : Decision × Store)
    (h : onLink f st now uid text newPid = .ok r) :
    onLink noFail st now uid text newPid = .ok r := by
  by_cases hl : containsLink text = true
  · simp only [onLink, hl, Bool.not_true, Bool.false_eq_true, if_false] at h
    cases hc : dailyCount f st now uid with
    | error e => simp [hc] at h
    | ok c =>
      have hcv := getCnt_ok f st (dayOf now) uid c hc
      subst hcv
      simp only [hc] at h
      by_cases h3 : 3 ≤ st.cnt (dayOf now, uid)
      · rw [if_pos h3] at h
        rw [onLink_noFail_quota st now uid newPid text hl h3, h]
      · rw [if_neg h3] at h
        cases hr : hasFulfilledRule f st now uid with
        | error e => simp [hr] at h
        | ok b =>
          have hrOk := hasFulfilledRule_ok f st now uid b hr
          rw [hasFulfilledRule_noFail] at hrOk
          simp only [Except.ok.injEq] at hrOk
          subst hrOk
          simp only [hr] at h
          cases hbv : ruleFulfilled st now uid with
          | false =>
            rw [hbv] at h
            simp only [Bool.not_false, if_true] at h
            rw [onLink_noFail_reciprocity st now uid newPid text hl (by omega) hbv, h]
          | true =>
            rw [hbv] at h
            simp only [Bool.not_true, Bool.false_eq_true, if_false] at h
            cases hbd : bumpDailyCount f st now uid with
            | error e => simp [hbd] at h
            | ok p =>
              have hbdOk := bumpDailyCount_ok f st now uid p hbd
              rw [bumpDailyCount_noFail] at hbdOk
              simp only [Except.ok.injEq] at hbdOk
              obtain ⟨count, st1⟩ := p
              simp only [Prod.mk.injEq] at hbdOk
              obtain ⟨hcount, hst1⟩ := hbdOk
              subst hcount
              simp only [hbd] at h
              cases hsp : setPoster f st1 newPid uid with
              | error e => simp [hsp] at h
              | ok st2 =>
                have hspv := setPoster_ok f st1 st2 newPid uid hsp
                simp only [hsp] at h
                cases hmi : markInteraction f st2 newPid uid with
                | error e => simp [hmi] at h
                | ok st3 =>
                  have hmiv := markInteraction_ok_val f st2 st3 newPid uid hmi
                  simp only [hmi] at h
                  cases hza : zAddWindow f st3 newPid now with
                  | error e => simp [hza] at h
                  | ok st4 =>
                    have hzav := zAddWindow_ok f st3 st4 newPid now hza
                    simp only [hza] at h
                    cases hew : expireWindow f st4 with
                    | error e => simp [hew] at h
                    | ok st5 =>
                      have hewv := expireWindow_ok f st4 st5 hew
                      simp only [hew] at h
                      rw [onLink_noFail_admission st now uid newPid text hl (by omega) hbv, ← h]
                      subst hewv
                      subst hzav
                      subst hmiv
                      subst hspv
                      subst hst1
                      simp [admittedStore]
  · have hlf : containsLink text = false := by
      revert hl; cases containsLink text <;> simp
    simp only [onLink, hlf, Bool.not_false, if_true] at h
    rw [onLink_noFail_ignored st now uid newPid text hlf, h]

/-- C3: in the grace-then-strict variant, with a stored deadline `ea`, a
submission at `now < ea` passes the reciprocity check unconditionally, and a
submission at `ea ≤ now` is subject to the universal check of `ackOk` over
every post of the trailing window. -/
theorem grace_then_strict_variant (st : Store) (now ea : Int) (uid : Nat)
    (hg : st.grace = some ea) :
    (now < ea → hasFulfilledRule noFail st now uid = .ok true)
    ∧ (ea ≤ now → hasFulfilledRule noFail st now uid =
        .ok ((postsInWindow st now TTL12H).all (ackOk st uid))) := by
  constructor
  · intro h
    rw [hasFulfilledRule_noFail]
    simp [ruleFulfilled, hg, h]
  · intro h
    rw [hasFulfilledRule_noFail]
    have hnl : ¬ now < ea := not_lt.mpr h
    simp [ruleFulfilled, hg, hnl, existsUnacknowledged_eq]

/-- Witness for C3 at a concrete store: grace passes at `now = 50 < 100`, and
at `now = 200 ≥ 100` the unacknowledged foreign post makes the check fail. -/
theorem grace_then_strict_variant_witness :
    hasFulfilledRule noFail exGrace 50 1 = .ok true
    ∧ hasFulfilledRule noFail exGrace 200 1 = .ok false :=
  ⟨(grace_then_strict_variant exGrace 50 100 1 rfl).1 (by decide),
   ((grace_then_strict_variant exGrace 200 100 1 rfl).2 (by decide)).trans
     (congrArg Except.ok (by decide))⟩

/-- C5: whenever `on_link` returns `Rejected(quota)` or
`Rejected(reciprocity)`, the store handed back is exactly the store it was
given: rejection performs no mutation of counters, poster records,
acknowledgment sets, window index or grace deadline. -/
theorem rejection_no_mutation (st st1 : Store) (now : Int) (uid newPid : Nat)
    (text : String) (d : Decision)
    (h : onLink noFail st now uid text newPid = .ok (d, st1))
    (hd : d = .rejectedQuota ∨ d = .rejectedReciprocity) :
    st1 = st := by
  rcases onLink_noFail_cases st st1 now uid newPid text d h with
    ⟨_, _, he⟩ | ⟨_, _, _, he⟩ | ⟨_, _, _, _, he⟩ | ⟨_, _, _, hd1, _⟩
  · exact he
  · exact he
  · exact he
  · subst hd1; rcases hd with h1 | h1 <;> cases h1

/-- Witness for C5: a quota rejection at a concrete store returns the very
same store. -/
theorem rejection_no_mutation_witness :
    onLink noFail exFull 10 1 "http://a" 9 = .ok (.rejectedQuota, exFull)
    ∧ exFull = exFull :=
  ⟨rfl, rejection_no_mutation exFull exFull 10 1 9 "http://a" .rejectedQuota rfl
    (Or.inl rfl)⟩

/-- C8: `bump_daily_count` returns the previous counter value plus one
(a counter absent from the store reads as 0, so it is created at 1), writes
that value back, and gives the key an expiry at the next UTC midnight. -/
theorem bump_returns_succ_expires_midnight (st : Store) (now : Int) (uid : Nat) :
    bumpDailyCount noFail st now uid =
      .ok (st.cnt (dayOf now, uid) + 1,
        { st with
          cnt := Function.update st.cnt (dayOf now, uid)
            (st.cnt (dayOf now, uid) + 1)
          cntExpiry := Function.update st.cntExpiry (dayOf now, uid)
            (some (nextUtcMidnight now)) }) := by
  rw [bumpDailyCount_noFail]
  have h : now + secondsToMidnight now = nextUtcMidnight now := by
    unfold secondsToMidnight nextUtcMidnight dayOf
    omega
  rw [h]

/-- C10: recording the same interaction twice leaves the acknowledgment sets
(and the whole store) exactly as after recording it once. -/
theorem record_interaction_idempotent (st st1 : Store) (pid uid : Nat)
    (h : markInteraction noFail st pid uid = .ok st1) :
    markInteraction noFail st1 pid uid = .ok st1 := by
  rw [markInteraction_noFail] at h
  simp only [Except.ok.injEq] at h
  subst h
  rw [markInteraction_noFail]
  simp only [Except.ok.injEq]
  congr 1
  simp [Function.update_same, Function.update_idem, Finset.insert_idem]

/-- Witness for C10 at a concrete store: re-marking interaction (5, 1) on the
store that already recorded it is the identity. -/
theorem record_interaction_idempotent_witness :
    markInteraction noFail
        { exEmpty with
          interacted := Function.update exEmpty.interacted 5
            (insert 1 (exEmpty.interacted 5)) } 5 1
      = .ok { exEmpty with
          interacted := Function.update exEmpty.interacted 5
            (insert 1 (exEmpty.interacted 5)) } :=
  record_interaction_idempotent exEmpty _ 5 1 rfl

/-- C1 counterexample: after the grace deadline (deadline 0 ≤ now = 10) an
unacknowledged foreign window post exists, yet `on_link` returns
`Rejected(quota)`, not `Rejected(reciprocity)`, because the submitting
user's daily counter already reads 3: the claimed biconditional fails
without a below-quota proviso. -/
theorem reciprocity_iff_counterexample :
    onLink noFail exQuotaAndDebt 10 1 "http://a" 9 = .ok (.rejectedQuota, exQuotaAndDebt)
    ∧ existsUnacknowledged exQuotaAndDebt 10 1 = true
    ∧ exQuotaAndDebt.grace = some 0
    ∧ ((0 : Int) ≤ 10 ∧ Decision.rejectedQuota ≠ Decision.rejectedReciprocity) :=
  ⟨rfl, by decide, rfl, by decide, by decide⟩

/-- C1 (amended): after the grace deadline, for a link-bearing submission by
a user whose daily count is below 3, `on_link` returns
`Rejected(reciprocity)` iff some trailing-window post not stored as the
user's own lacks the user's acknowledgment; and on admission the poster is
immediately inserted into the new post's acknowledgment set. -/
theorem reciprocity_rejection_iff (st : Store) (now ea : Int)
    (uid newPid : Nat) (text : String)
    (hl : containsLink text = true)
    (hg : st.grace = some ea) (hge : ea ≤ now)
    (hq : st.cnt (dayOf now, uid) < 3) :
    (onLink noFail st now uid text newPid = .ok (.rejectedReciprocity, st)
      ↔ existsUnacknowledged st now uid = true)
    ∧ (∀ c st1, onLink noFail st now uid text newPid = .ok (.admitted newPid c, st1)
        → uid ∈ st1.interacted newPid) := by
  have hrf : ruleFulfilled st now uid = !existsUnacknowledged st now uid := by
    simp [ruleFulfilled, hg, not_lt.mpr hge]
  cases hex : existsUnacknowledged st now uid with
  | true =>
    have heq := onLink_noFail_reciprocity st now uid newPid text hl hq
      (by rw [hrf, hex]; rfl)
    refine ⟨⟨fun _ => rfl, fun _ => heq⟩, ?_⟩
    intro c st1 h
    rw [heq] at h
    simp at h
  | false =>
    have heq := onLink_noFail_admission st now uid newPid text hl hq
      (by rw [hrf, hex]; rfl)
    refine ⟨⟨fun h => ?_, fun h => by cases h⟩, ?_⟩
    · rw [heq] at h
      simp at h
    · intro c st1 h
      rw [heq] at h
      simp only [Except.ok.injEq, Prod.mk.injEq] at h
      rw [← h.2]
      simp [admittedStore, Function.update_same]

/-- Witness for C1 (amended) at a concrete store: below quota, after the
deadline, with an unacknowledged foreign post, the submission is rejected
for reciprocity. -/
theorem reciprocity_rejection_iff_witness :
    onLink noFail { exQuotaAndDebt with cnt := fun _ => 0 } 10 1 "http://a" 9
      = .ok (.rejectedReciprocity, { exQuotaAndDebt with cnt := fun _ => 0 })
    ∧ existsUnacknowledged { exQuotaAndDebt with cnt := fun _ => 0 } 10 1 = true :=
  ⟨(reciprocity_rejection_iff { exQuotaAndDebt with cnt := fun _ => 0 } 10 0 1 9
      "http://a" rfl rfl (by decide) (by decide)).1.mpr (by decide),
   by decide⟩

/-- C2: a submission from a user whose counter reads at least 3 is rejected
for quota with no state change, and consequently along any sequential run of
events a daily counter that starts at most 3 never exceeds 3. -/
theorem daily_quota_enforced (st stFin : Store) (evs : List (Int × Event))
    (h0 : ∀ k, st.cnt k ≤ 3) (hs : Steps st evs stFin) :
    (∀ now uid text newPid, containsLink text = true →
        3 ≤ st.cnt (dayOf now, uid) →
        onLink noFail st now uid text newPid = .ok (.rejectedQuota, st))
    ∧ ∀ k, stFin.cnt k ≤ 3 :=
  ⟨fun now uid text newPid hl h3 => onLink_noFail_quota st now uid newPid text hl h3,
   steps_cnt_le st stFin evs hs h0⟩

/-- Witness for C2: a one-event run from the empty store admits a post and
leaves the submitting user's counter at 1 ≤ 3. -/
theorem daily_quota_enforced_witness :
    (admittedStore exEmpty 0 1 9).cnt (0, 1) ≤ 3 :=
  (daily_quota_enforced exEmpty (admittedStore exEmpty 0 1 9)
      [(0, Event.link 1 "http://a" 9)] (fun _ => Nat.zero_le 3)
      (Steps.link exEmpty (admittedStore exEmpty 0 1 9)
        (admittedStore exEmpty 0 1 9) 0 1 "http://a" 9
        (.admitted 9 1) [] rfl
        (Steps.nil (admittedStore exEmpty 0 1 9)))).2 (0, 1)

/-- C7: with no grace-deadline value stored, `has_fulfilled_rule` defaults
the deadline to `now + TTL_12H`, hence returns satisfied for every ledger
state, and no path of `on_link` writes the grace key, which therefore stays
absent. -/
theorem missing_grace_key_vacuous (st : Store) (now : Int) (uid : Nat)
    (hg : st.grace = none) :
    hasFulfilledRule noFail st now uid = .ok true
    ∧ ∀ text newPid d st1,
        onLink noFail st now uid text newPid = .ok (d, st1) → st1.grace = none := by
  constructor
  · rw [hasFulfilledRule_noFail]
    have hlt : now < now + TTL12H := by unfold TTL12H; omega
    simp [ruleFulfilled, hg, hlt]
  · intro text newPid d st1 h
    rcases onLink_noFail_cases st st1 now uid newPid text d h with
      ⟨_, _, he⟩ | ⟨_, _, _, he⟩ | ⟨_, _, _, _, he⟩ | ⟨_, _, _, _, he⟩
    · rw [he]; exact hg
    · rw [he]; exact hg
    · rw [he]; exact hg
    · rw [he]; simpa [admittedStore] using hg

/-- Witness for C7: the empty store has no grace key; the rule passes and an
admission leaves the key absent. -/
theorem missing_grace_key_vacuous_witness :
    hasFulfilledRule noFail exEmpty 0 1 = .ok true
    ∧ (admittedStore exEmpty 0 1 9).grace = none :=
  ⟨(missing_grace_key_vacuous exEmpty 0 1 rfl).1,
   (missing_grace_key_vacuous exEmpty 0 1 rfl).2 "http://a" 9
     (.admitted 9 1) (admittedStore exEmpty 0 1 9) rfl⟩

/-- C4 counterexample: the range bounds of the window query are inclusive,
so a post recorded at `t0 = 0` still appears in `posts_in_window` at
`now = t0 + W` exactly, against the claimed disappearance for all
`now ≥ t0 + W`. -/
theorem window_expiry_counterexample :
    5 ∈ postsInWindow exOnePost 43200 TTL12H
    ∧ (43200 : Int) = 0 + TTL12H := by
  constructor
  · decide
  · decide

/-- C4 (amended): a post recorded at `t0` no longer appears in
`posts_in_window(now, W)` once `now > t0 + W` (strictly past the boundary),
and the user's obligation towards it disappears there too: the query returns
exactly the posts with recorded timestamp in the inclusive interval
`[now - W, now]`, in ascending time order, and the acknowledgment set of the
expired post no longer influences the reciprocity verdict. -/
theorem window_expiry_strict (st : Store) (pid : Nat) (t0 now : Int)
    (hmem : (pid, t0) ∈ st.window)
    (hnd : (st.window.map (fun e => e.1)).Nodup)
    (hexp : t0 + TTL12H < now) :
    pid ∉ postsInWindow st now TTL12H
    ∧ (∀ q, q ∈ postsInWindow st now TTL12H ↔
        ∃ s, (q, s) ∈ st.window ∧ now - TTL12H ≤ s ∧ s ≤ now)
    ∧ (st.window.Pairwise (fun a b => a.2 ≤ b.2) →
        (st.window.filter (fun e => now - TTL12H ≤ e.2 && e.2 ≤ now)).Pairwise
          (fun a b => a.2 ≤ b.2))
    ∧ (∀ uid s,
        existsUnacknowledged
            { st with interacted := Function.update st.interacted pid s } now uid
          = existsUnacknowledged st now uid) := by
  have hnot : pid ∉ postsInWindow st now TTL12H := by
    rw [mem_postsInWindow]
    rintro ⟨s, hw, h1, h2⟩
    have hss : (pid, s) = (pid, t0) :=
      List.inj_on_of_nodup_map hnd hw hmem rfl
    have hst : s = t0 := by
      have := congrArg Prod.snd hss
      simpa using this
    omega
  refine ⟨hnot, mem_postsInWindow st now TTL12H, ?_, ?_⟩
  · intro hp
    exact hp.sublist (List.filter_sublist st.window)
  · intro uid s
    exact existsUnacknowledged_update_out st pid s now uid hnot

/-- Witness for C4 (amended): one strictly-expired post is not returned and
its acknowledgment set no longer matters. -/
theorem window_expiry_strict_witness :
    5 ∉ postsInWindow exOnePost 43201 TTL12H
    ∧ existsUnacknowledged
        { exOnePost with interacted := Function.update exOnePost.interacted 5 {1} }
        43201 2
      = existsUnacknowledged exOnePost 43201 2 :=
  ⟨(window_expiry_strict exOnePost 5 0 43201 (by decide) (by decide) (by decide)).1,
   (window_expiry_strict exOnePost 5 0 43201 (by decide) (by decide) (by decide)).2.2.2 2 {1}⟩

/-- C9: `record_interaction` succeeds for a post id absent from the window
index (unknown or expired), and is then a no-op in effect: the window index
is untouched, every later reciprocity verdict is unchanged, and every later
admission decision is unchanged. -/
theorem record_interaction_unknown_noop (st : Store) (pid uid : Nat)
    (hunk : ∀ s, (pid, s) ∉ st.window) :
    (markInteraction noFail st pid uid).isOk = true
    ∧ ∀ st1, markInteraction noFail st pid uid = .ok st1 →
        st1.window = st.window
        ∧ (∀ now uid1,
            hasFulfilledRule noFail st1 now uid1 = hasFulfilledRule noFail st now uid1)
        ∧ (∀ now uid1 text newPid,
            Except.map Prod.fst (onLink noFail st1 now uid1 text newPid)
              = Except.map Prod.fst (onLink noFail st now uid1 text newPid)) := by
  have hnot : ∀ now : Int, pid ∉ postsInWindow st now TTL12H := by
    intro now hmem
    rw [mem_postsInWindow] at hmem
    rcases hmem with ⟨s, hw, _, _⟩
    exact hunk s hw
  constructor
  · rw [markInteraction_noFail]; rfl
  · intro st1 h
    rw [markInteraction_noFail] at h
    simp only [Except.ok.injEq] at h
    subst h
    refine ⟨rfl, ?_, ?_⟩
    · intro now uid1
      rw [hasFulfilledRule_noFail, hasFulfilledRule_noFail]
      exact congrArg Except.ok (ruleFulfilled_congr _ _ now uid1 rfl
        (existsUnacknowledged_update_out st pid _ now uid1 (hnot now)))
    · intro now uid1 text newPid
      exact onLink_decision_congr _ _ now uid1 newPid text rfl
        (ruleFulfilled_congr _ _ now uid1 rfl
          (existsUnacknowledged_update_out st pid _ now uid1 (hnot now)))

/-- Witness for C9: marking the unknown post 5 on the empty store succeeds
and leaves a later admission decision of user 2 unchanged. -/
theorem record_interaction_unknown_noop_witness :
    (markInteraction noFail exEmpty 5 1).isOk = true
    ∧ Except.map Prod.fst (onLink noFail exMarked 0 2 "http://a" 9)
        = Except.map Prod.fst (onLink noFail exEmpty 0 2 "http://a" 9) :=
  ⟨(record_interaction_unknown_noop exEmpty 5 1 (fun _ => List.not_mem_nil _)).1,
   ((record_interaction_unknown_noop exEmpty 5 1
      (fun _ => List.not_mem_nil _)).2 exMarked rfl).2.2 0 2 "http://a" 9⟩

/-- C6: a store failure never becomes a decision: any decision `on_link`
returns under a failure configuration is exactly the failure-free decision
(so an evaluation actually affected by a failure propagates the error), and
in particular a failed read of the grace key during rule evaluation aborts
the run with an error instead of passing the rule. -/
theorem store_failure_aborts (f : FailCfg) (st : Store) (now : Int)
    (uid newPid : Nat) (text : String) :
    (∀ r, onLink f st now uid text newPid = .ok r →
        onLink f st now uid text newPid = onLink noFail st now uid text newPid)
    ∧ (containsLink text = true → f RKey.graceK = true →
        f (RKey.cntK (dayOf now) uid) = false →
        st.cnt (dayOf now, uid) < 3 →
        onLink f st now uid text newPid = .error ()) := by
  constructor
  · intro r h
    rw [h, onLink_ok f st now uid newPid text r h]
  · intro hl hgf hcf hq
    have hnq : ¬ 3 ≤ st.cnt (dayOf now, uid) := by omega
    simp [onLink, hl, dailyCount, getCnt, hcf, hnq, hasFulfilledRule, getGrace, hgf]

/-- Witness for C6: with the grace-key read failing, a quota rejection is
still rendered identically to the failure-free run (the grace key is never
consulted on that path), while a below-quota submission aborts with an
error. -/
theorem store_failure_aborts_witness :
    onLink (fun k => decide (k = RKey.graceK)) exFull 10 1 "http://a" 9
        = onLink noFail exFull 10 1 "http://a" 9
    ∧ onLink (fun k => decide (k = RKey.graceK)) exEmpty 10 1 "http://a" 9
        = .error () :=
  ⟨(store_failure_aborts (fun k => decide (k = RKey.graceK)) exFull 10 1 9
      "http://a").1 (.rejectedQuota, exFull) rfl,
   (store_failure_aborts (fun k => decide (k = RKey.graceK)) exEmpty 10 1 9
      "http://a").2 rfl (by decide) (by decide) (by decide)⟩
